import Mathlib

/-!
Verification of the alsa-lib PCM ring-buffer pointer model and dispatch
layer, shallowly embedded from src/pcm/pcm_local.h.

`snd_pcm_uframes_t` (unsigned frame counts and ring positions) is
modelled as `Nat`; `snd_pcm_sframes_t` (signed frame counts) as `Int`.
The C functions read `boundary`, `buffer_size`, `avail_min` and the
`fast_ops` table from the `snd_pcm` structure; here those fields are
passed explicitly or carried by a `snd_pcm` record.  Within the ranges
stated in the theorems the C unsigned/signed conversions compute the
exact integer values used below.
-/

/- Error numbers (errno.h values used by the PCM core). -/

def EINTR : Int := 4

def EPIPE : Int := 32

def ESTRPIPE : Int := 86

def ENODEV : Int := 19

def ENOSYS : Int := 38

def INT_MAX : Int := 2 ^ 31 - 1

def INT_MIN : Int := -(2 ^ 31)

/-- PCM stream states (`snd_pcm_state_t`). -/
inductive snd_pcm_state_t where
  | OPEN
  | SETUP
  | PREPARED
  | RUNNING
  | XRUN
  | DRAINING
  | PAUSED
  | SUSPENDED
  | DISCONNECTED
deriving DecidableEq, Repr

/-- Stream direction (`snd_pcm_stream_t`). -/
inductive snd_pcm_stream_t where
  | PLAYBACK
  | CAPTURE
deriving DecidableEq, Repr

/-- Embedding of `__snd_pcm_playback_avail` (pcm_local.h): number of frames
available to the application for playback.  `avail` is a
`snd_pcm_sframes_t`; the function computes `hw_ptr + buffer_size -
appl_ptr`, adds `boundary` if negative, subtracts `boundary` once if the
result is at least `boundary`, and returns it. -/
def __snd_pcm_playback_avail (boundary buffer_size hw_ptr appl_ptr : Nat) : Int :=
  let avail : Int := (hw_ptr : Int) + buffer_size - appl_ptr
  if avail < 0 then avail + boundary
  else if avail ≥ boundary then avail - boundary
  else avail

/-- Embedding of `__snd_pcm_capture_avail` (pcm_local.h): number of frames
available to the application for capture: `hw_ptr - appl_ptr`, plus
`boundary` if negative. -/
def __snd_pcm_capture_avail (boundary hw_ptr appl_ptr : Nat) : Int :=
  let avail : Int := (hw_ptr : Int) - appl_ptr
  if avail < 0 then avail + boundary
  else avail

/-- Embedding of `__snd_pcm_avail` (pcm_local.h): dispatch on the stream
direction. -/
def __snd_pcm_avail (stream : snd_pcm_stream_t)
    (boundary buffer_size hw_ptr appl_ptr : Nat) : Int :=
  match stream with
  | snd_pcm_stream_t.PLAYBACK => __snd_pcm_playback_avail boundary buffer_size hw_ptr appl_ptr
  | snd_pcm_stream_t.CAPTURE => __snd_pcm_capture_avail boundary hw_ptr appl_ptr

/-- Embedding of `snd_pcm_mmap_playback_hw_avail` (pcm_local.h): the filled
part of the playback ring buffer, `buffer_size - playback_avail`. -/
def snd_pcm_mmap_playback_hw_avail (boundary buffer_size hw_ptr appl_ptr : Nat) : Int :=
  (buffer_size : Int) - __snd_pcm_playback_avail boundary buffer_size hw_ptr appl_ptr

/-- Embedding of `snd_pcm_mmap_capture_hw_avail` (pcm_local.h): the empty
part of the capture ring buffer, `buffer_size - capture_avail`. -/
def snd_pcm_mmap_capture_hw_avail (boundary buffer_size hw_ptr appl_ptr : Nat) : Int :=
  (buffer_size : Int) - __snd_pcm_capture_avail boundary hw_ptr appl_ptr

/-- Embedding of `snd_pcm_mmap_hw_avail` (pcm_local.h): direction-generic
`buffer_size - avail`. -/
def snd_pcm_mmap_hw_avail (stream : snd_pcm_stream_t)
    (boundary buffer_size hw_ptr appl_ptr : Nat) : Int :=
  (buffer_size : Int) - __snd_pcm_avail stream boundary buffer_size hw_ptr appl_ptr

/-- Embedding of `snd_pcm_mmap_playback_hw_rewindable` (pcm_local.h):
`ret >= 0 ? ret : 0` over the playback hw-avail. -/
def snd_pcm_mmap_playback_hw_rewindable (boundary buffer_size hw_ptr appl_ptr : Nat) : Int :=
  let ret := snd_pcm_mmap_playback_hw_avail boundary buffer_size hw_ptr appl_ptr
  if ret ≥ 0 then ret else 0

/-- Embedding of `snd_pcm_mmap_capture_hw_rewindable` (pcm_local.h). -/
def snd_pcm_mmap_capture_hw_rewindable (boundary buffer_size hw_ptr appl_ptr : Nat) : Int :=
  let ret := snd_pcm_mmap_capture_hw_avail boundary buffer_size hw_ptr appl_ptr
  if ret ≥ 0 then ret else 0

/-- Embedding of `snd_pcm_mmap_hw_rewindable` (pcm_local.h), the
direction-generic variant. -/
def snd_pcm_mmap_hw_rewindable (stream : snd_pcm_stream_t)
    (boundary buffer_size hw_ptr appl_ptr : Nat) : Int :=
  let ret := snd_pcm_mmap_hw_avail stream boundary buffer_size hw_ptr appl_ptr
  if ret ≥ 0 then ret else 0

/-- Embedding of `pcm_frame_diff` (pcm_local.h): signed distance from
`ptr2` to `ptr1` on the boundary circle. -/
def pcm_frame_diff (ptr1 ptr2 boundary : Nat) : Int :=
  if ptr1 < ptr2 then (ptr1 : Int) + ((boundary : Int) - ptr2)
  else (ptr1 : Int) - ptr2

/-- Embedding of `muldiv` (pcm_local.h): 64-bit product `a * b`, C
truncating division by `c` with the quotient clamped to the `int` range
(remainder forced to `0` when clamped).  Returns `(quotient, remainder)`;
the C version stores the remainder through `*r`. -/
def muldiv (a b c : Int) : Int × Int :=
  let n : Int := a * b
  let v : Int := Int.tdiv n c
  if v > INT_MAX then (INT_MAX, 0)
  else if v < INT_MIN then (INT_MIN, 0)
  else (v, Int.tmod n c)

/-- Embedding of `muldiv_near` (pcm_local.h): round the quotient up when
the remainder reaches `(c + 1) / 2` (C truncating division). -/
def muldiv_near (a b c : Int) : Int :=
  let nr := muldiv a b c
  if nr.2 ≥ Int.tdiv (c + 1) 2 then nr.1 + 1 else nr.1

/-- Modelled from the spec: `advance_appl_ptr(delta)` "moves appl_ptr
forward by delta frames modulo boundary".  The concrete advance routine
(`snd_pcm_mmap_appl_forward`, pcm_mmap.c) is not under src/; only its
declaration appears in pcm_local.h. -/
def advance_appl_ptr (boundary appl_ptr delta : Nat) : Nat :=
  (appl_ptr + delta) % boundary

/-- Modelled from the spec: `advance_hw_ptr(delta)`, the hardware-side
pointer advance with the same modulo discipline
(`snd_pcm_mmap_hw_forward`, pcm_mmap.c, is not under src/). -/
def advance_hw_ptr (boundary hw_ptr delta : Nat) : Nat :=
  (hw_ptr + delta) % boundary

/-- Pointer-advance step relation from a prepared stream (both pointers
reset to 0).  The application pointer may advance by at most the
available frames, the hardware pointer by at most
`buffer_size - avail` frames (the caller-checked bounds of the transfer
engine); both advances wrap modulo `boundary`.  States are indexed as
`(hw_ptr, appl_ptr)`. -/
inductive pcm_reachable (stream : snd_pcm_stream_t) (boundary buffer_size : Nat) :
    Nat → Nat → Prop where
  | prepared : pcm_reachable stream boundary buffer_size 0 0
  | appl_step (hw_ptr appl_ptr delta : Nat) :
      pcm_reachable stream boundary buffer_size hw_ptr appl_ptr →
      (delta : Int) ≤ __snd_pcm_avail stream boundary buffer_size hw_ptr appl_ptr →
      pcm_reachable stream boundary buffer_size hw_ptr (advance_appl_ptr boundary appl_ptr delta)
  | hw_step (hw_ptr appl_ptr delta : Nat) :
      pcm_reachable stream boundary buffer_size hw_ptr appl_ptr →
      (delta : Int) ≤ (buffer_size : Int) -
        __snd_pcm_avail stream boundary buffer_size hw_ptr appl_ptr →
      pcm_reachable stream boundary buffer_size (advance_hw_ptr boundary hw_ptr delta) appl_ptr

/-- The fast-ops dispatch table (`snd_pcm_fast_ops_t`), restricted to the
callbacks exercised by the dispatch wrappers under study.  A `none`
entry models a NULL function pointer.  `α` is the type of
`fast_op_arg`, `β` of an interleaved buffer pointer, `γ` of a
non-interleaved buffer vector; callbacks returning `snd_pcm_sframes_t`
or `int` yield `Int`.  The `delay` callback yields the pair
`(return code, value stored through delayp)`. -/
structure snd_pcm_fast_ops (α β γ : Type) where
  start : Option (α → Int)
  state : Option (α → snd_pcm_state_t)
  hwsync : Option (α → Int)
  delay : Option (α → Int × Int)
  writei : Option (α → β → Nat → Int)
  writen : Option (α → γ → Nat → Int)
  readi : Option (α → β → Nat → Int)
  readn : Option (α → γ → Nat → Int)
  avail_update : Option (α → Int)
  may_wait_for_avail_min : Option (α → Nat → Int)

/-- The fields of `struct _snd_pcm` used by the functions under study. -/
structure snd_pcm (α β γ : Type) where
  avail_min : Nat
  fast_ops : snd_pcm_fast_ops α β γ
  fast_op_arg : α

/-- Embedding of `__snd_pcm_avail_update` (pcm_local.h). -/
def __snd_pcm_avail_update {α β γ : Type} (pcm : snd_pcm α β γ) : Int :=
  match pcm.fast_ops.avail_update with
  | none => -ENOSYS
  | some f => f pcm.fast_op_arg

/-- Embedding of `__snd_pcm_start` (pcm_local.h). -/
def __snd_pcm_start {α β γ : Type} (pcm : snd_pcm α β γ) : Int :=
  match pcm.fast_ops.start with
  | none => -ENOSYS
  | some f => f pcm.fast_op_arg

/-- Embedding of `__snd_pcm_state` (pcm_local.h): a missing callback
reports `SND_PCM_STATE_OPEN`. -/
def __snd_pcm_state {α β γ : Type} (pcm : snd_pcm α β γ) : snd_pcm_state_t :=
  match pcm.fast_ops.state with
  | none => snd_pcm_state_t.OPEN
  | some f => f pcm.fast_op_arg

/-- Embedding of `__snd_pcm_hwsync` (pcm_local.h). -/
def __snd_pcm_hwsync {α β γ : Type} (pcm : snd_pcm α β γ) : Int :=
  match pcm.fast_ops.hwsync with
  | none => -ENOSYS
  | some f => f pcm.fast_op_arg

/-- Embedding of `__snd_pcm_delay` (pcm_local.h).  Returns the pair
`(return code, final value of *delayp)`; a missing callback leaves the
output parameter untouched. -/
def __snd_pcm_delay {α β γ : Type} (pcm : snd_pcm α β γ) (delayp : Int) : Int × Int :=
  match pcm.fast_ops.delay with
  | none => (-ENOSYS, delayp)
  | some f => f pcm.fast_op_arg

/-- Embedding of `_snd_pcm_writei` (pcm_local.h). -/
def _snd_pcm_writei {α β γ : Type} (pcm : snd_pcm α β γ) (buffer : β) (size : Nat) : Int :=
  match pcm.fast_ops.writei with
  | none => -ENOSYS
  | some f => f pcm.fast_op_arg buffer size

/-- Embedding of `_snd_pcm_writen` (pcm_local.h). -/
def _snd_pcm_writen {α β γ : Type} (pcm : snd_pcm α β γ) (bufs : γ) (size : Nat) : Int :=
  match pcm.fast_ops.writen with
  | none => -ENOSYS
  | some f => f pcm.fast_op_arg bufs size

/-- Embedding of `_snd_pcm_readi` (pcm_local.h). -/
def _snd_pcm_readi {α β γ : Type} (pcm : snd_pcm α β γ) (buffer : β) (size : Nat) : Int :=
  match pcm.fast_ops.readi with
  | none => -ENOSYS
  | some f => f pcm.fast_op_arg buffer size

/-- Embedding of `_snd_pcm_readn` (pcm_local.h). -/
def _snd_pcm_readn {α β γ : Type} (pcm : snd_pcm α β γ) (bufs : γ) (size : Nat) : Int :=
  match pcm.fast_ops.readn with
  | none => -ENOSYS
  | some f => f pcm.fast_op_arg bufs size

/-- Embedding of `snd_pcm_check_error` (pcm_local.h): remap `-EINTR`
according to the current stream state. -/
def snd_pcm_check_error {α β γ : Type} (pcm : snd_pcm α β γ) (err : Int) : Int :=
  if err = -EINTR then
    match __snd_pcm_state pcm with
    | snd_pcm_state_t.XRUN => -EPIPE
    | snd_pcm_state_t.SUSPENDED => -ESTRPIPE
    | snd_pcm_state_t.DISCONNECTED => -ENODEV
    | _ => err
  else err

/-- Embedding of `snd_pcm_may_wait_for_avail_min` (pcm_local.h): true
(1) when the stream may block waiting for `avail_min`, unless a
plugin-specific callback decides. -/
def snd_pcm_may_wait_for_avail_min {α β γ : Type} (pcm : snd_pcm α β γ) (avail : Nat) : Int :=
  if avail ≥ pcm.avail_min then 0
  else
    match pcm.fast_ops.may_wait_for_avail_min with
    | some f => f pcm.fast_op_arg avail
    | none => 1

/-- A concrete PCM handle whose fast-ops table is entirely NULL. -/
def pcm_all_none : snd_pcm Unit Unit Unit :=
  ⟨4, ⟨none, none, none, none, none, none, none, none, none, none⟩, ()⟩

/-- A concrete PCM handle whose state callback reports XRUN. -/
def pcm_in_xrun : snd_pcm Unit Unit Unit :=
  ⟨4, ⟨none, some fun _ => snd_pcm_state_t.XRUN, none, none, none, none,
    none, none, none, none⟩, ()⟩

/-- A concrete PCM handle with every studied callback installed. -/
def pcm_all_set : snd_pcm Unit Unit Unit :=
  ⟨4, ⟨some fun _ => 0, some fun _ => snd_pcm_state_t.RUNNING, some fun _ => 0,
    some fun _ => (0, 5), some fun _ _ n => (n : Int), some fun _ _ n => (n : Int),
    some fun _ _ n => (n : Int), some fun _ _ n => (n : Int), some fun _ => 42,
    some fun _ _ => 7⟩, ()⟩

/- Helper lemmas. -/

lemma int_emod_shift_up (A b : Int) : (A + b) % b = A % b := by
  have h := @Int.add_mul_emod_self_left A b 1
  rw [mul_one] at h
  exact h

lemma int_emod_le_self_of_le {a b : Int} (h0 : 0 ≤ a) (hab : a ≤ b) : a % b ≤ a := by
  rcases lt_or_eq_of_le hab with h | h
  · rw [Int.emod_eq_of_lt h0 h]
  · subst h
    rw [Int.emod_self]
    exact h0

lemma playback_avail_eq_emod (boundary buffer_size hw_ptr appl_ptr : Nat)
    (hbs : buffer_size ≤ boundary) (hhw : hw_ptr < boundary) (happl : appl_ptr < boundary) :
    __snd_pcm_playback_avail boundary buffer_size hw_ptr appl_ptr =
      ((hw_ptr : Int) + buffer_size - appl_ptr) % boundary := by
  unfold __snd_pcm_playback_avail
  dsimp only
  set A : Int := (hw_ptr : Int) + buffer_size - appl_ptr with hA
  have h1 : -(boundary : Int) < A := by omega
  have h2 : A < 2 * boundary := by omega
  split_ifs with h3 h4
  · calc A + boundary = (A + boundary) % boundary :=
          (Int.emod_eq_of_lt (by omega) (by omega)).symm
      _ = A % boundary := int_emod_shift_up A boundary
  · have h5 : A - boundary + boundary = A := by ring
    calc A - boundary = (A - boundary) % boundary :=
          (Int.emod_eq_of_lt (by omega) (by omega)).symm
      _ = A % boundary := by
          rw [← int_emod_shift_up (A - boundary) boundary, h5]
  · exact (Int.emod_eq_of_lt (by omega) (by omega)).symm

lemma capture_avail_eq_emod (boundary hw_ptr appl_ptr : Nat)
    (hhw : hw_ptr < boundary) (happl : appl_ptr < boundary) :
    __snd_pcm_capture_avail boundary hw_ptr appl_ptr =
      ((hw_ptr : Int) - appl_ptr) % boundary := by
  unfold __snd_pcm_capture_avail
  dsimp only
  set A : Int := (hw_ptr : Int) - appl_ptr with hA
  have h1 : -(boundary : Int) < A := by omega
  have h2 : A < boundary := by omega
  split_ifs with h3
  · calc A + boundary = (A + boundary) % boundary :=
          (Int.emod_eq_of_lt (by omega) (by omega)).symm
      _ = A % boundary := int_emod_shift_up A boundary
  · exact (Int.emod_eq_of_lt (by omega) (by omega)).symm

/-- C1 counterexample input: buffer_size 2, boundary 4, hw_ptr 0,
appl_ptr 3 satisfies the claimed preconditions, yet the returned value 3
exceeds buffer_size 2, so the result is not clamped to
`[0, buffer_size]`. -/
theorem playback_avail_not_clamped :
    __snd_pcm_playback_avail 4 2 0 3 = 3 ∧ ¬ __snd_pcm_playback_avail 4 2 0 3 ≤ 2 := by
  decide

/-- C1 (amended): for every playback state with `appl_ptr < boundary`,
`hw_ptr < boundary` and `buffer_size ≤ boundary`, the available-for-write
computation returns `hw_ptr + buffer_size - appl_ptr` normalized modulo
`boundary` into `[0, boundary)`; it is not clamped to
`[0, buffer_size]`. -/
theorem playback_avail_mod_normalized (boundary buffer_size hw_ptr appl_ptr : Nat)
    (hbs : buffer_size ≤ boundary) (hhw : hw_ptr < boundary) (happl : appl_ptr < boundary) :
    __snd_pcm_playback_avail boundary buffer_size hw_ptr appl_ptr =
      ((hw_ptr : Int) + buffer_size - appl_ptr) % boundary ∧
    0 ≤ __snd_pcm_playback_avail boundary buffer_size hw_ptr appl_ptr ∧
    __snd_pcm_playback_avail boundary buffer_size hw_ptr appl_ptr < boundary := by
  have he := playback_avail_eq_emod boundary buffer_size hw_ptr appl_ptr hbs hhw happl
  refine ⟨he, ?_, ?_⟩
  · rw [he]
    exact Int.emod_nonneg _ (by omega)
  · rw [he]
    exact Int.emod_lt_of_pos _ (by omega)

/-- Witness for `playback_avail_mod_normalized` at boundary 4,
buffer_size 2, hw_ptr 1, appl_ptr 3. -/
theorem playback_avail_mod_normalized_witness :
    __snd_pcm_playback_avail 4 2 1 3 = ((1 : Int) + 2 - 3) % 4 ∧
    0 ≤ __snd_pcm_playback_avail 4 2 1 3 ∧
    __snd_pcm_playback_avail 4 2 1 3 < 4 :=
  playback_avail_mod_normalized 4 2 1 3 (by decide) (by decide) (by decide)

/-- C4: for every capture state with `hw_ptr < boundary` and
`appl_ptr < boundary`, the available-for-read computation equals
`(hw_ptr - appl_ptr + boundary) mod boundary`, a value in
`[0, boundary)`. -/
theorem capture_avail_mod (boundary hw_ptr appl_ptr : Nat)
    (hhw : hw_ptr < boundary) (happl : appl_ptr < boundary) :
    __snd_pcm_capture_avail boundary hw_ptr appl_ptr =
      (((hw_ptr + boundary - appl_ptr) % boundary : Nat) : Int) ∧
    0 ≤ __snd_pcm_capture_avail boundary hw_ptr appl_ptr ∧
    __snd_pcm_capture_avail boundary hw_ptr appl_ptr < boundary := by
  have he := capture_avail_eq_emod boundary hw_ptr appl_ptr hhw happl
  refine ⟨?_, ?_, ?_⟩
  · rw [he]
    have hle : appl_ptr ≤ hw_ptr + boundary := by omega
    have hcast : (((hw_ptr + boundary - appl_ptr) % boundary : Nat) : Int) =
        ((hw_ptr : Int) + boundary - appl_ptr) % boundary := by
      push_cast [hle]
      ring_nf
    rw [hcast]
    have h5 : (hw_ptr : Int) - appl_ptr + boundary = (hw_ptr : Int) + boundary - appl_ptr := by
      ring
    rw [← int_emod_shift_up ((hw_ptr : Int) - appl_ptr) boundary, h5]
  · rw [he]
    exact Int.emod_nonneg _ (by omega)
  · rw [he]
    exact Int.emod_lt_of_pos _ (by omega)

/-- Witness for `capture_avail_mod` at boundary 4, hw_ptr 1, appl_ptr 3. -/
theorem capture_avail_mod_witness :
    __snd_pcm_capture_avail 4 1 3 = (((1 + 4 - 3) % 4 : Nat) : Int) ∧
    0 ≤ __snd_pcm_capture_avail 4 1 3 ∧
    __snd_pcm_capture_avail 4 1 3 < 4 :=
  capture_avail_mod 4 1 3 (by decide) (by decide)

/-- C3 counterexample: with buffer_size 8192, boundary 16384 (the
smallest admissible multiple of 8192 with boundary at least twice the
buffer size), appl_ptr 0 and hw_ptr 4096, the playback
available-for-write computation returns 12288, not the 4096 claimed by
the scenario. -/
theorem playback_avail_scenario_not_4096 :
    __snd_pcm_playback_avail 16384 8192 4096 0 = 12288 ∧
    __snd_pcm_playback_avail 16384 8192 4096 0 ≠ 4096 := by
  decide

/-- C3 (amended): for buffer_size 8192, boundary = 8192 * N with
boundary at least 2 * 8192, appl_ptr 0 and hw_ptr advanced to 4096, the
playback available-for-write computation reports
12288 = buffer_size + 4096 (the buffer was never filled, so hardware
advancement only adds empty space); the capture available-for-read
computation at the same pointers reports 4096. -/
theorem playback_avail_scenario_value (N : Nat) (hN : 2 ≤ N) :
    __snd_pcm_playback_avail (8192 * N) 8192 4096 0 = 12288 ∧
    __snd_pcm_capture_avail (8192 * N) 4096 0 = 4096 := by
  have hb : 16384 ≤ 8192 * N := by omega
  constructor
  · unfold __snd_pcm_playback_avail
    dsimp only
    push_cast
    split_ifs <;> omega
  · unfold __snd_pcm_capture_avail
    dsimp only
    push_cast

/-- Witness for `playback_avail_scenario_value` at N = 2. -/
theorem playback_avail_scenario_value_witness :
    __snd_pcm_playback_avail (8192 * 2) 8192 4096 0 = 12288 ∧
    __snd_pcm_capture_avail (8192 * 2) 4096 0 = 4096 :=
  playback_avail_scenario_value 2 (by decide)

/-- C5: advancing `appl_ptr` by exactly `boundary` frames returns it to
its original value, so `pcm_frame_diff` and the playback
available-frames computation are unchanged by such an advance. -/
theorem appl_advance_boundary_identity (boundary buffer_size hw_ptr appl_ptr ptr1 : Nat)
    (happl : appl_ptr < boundary) :
    advance_appl_ptr boundary appl_ptr boundary = appl_ptr ∧
    pcm_frame_diff ptr1 (advance_appl_ptr boundary appl_ptr boundary) boundary =
      pcm_frame_diff ptr1 appl_ptr boundary ∧
    __snd_pcm_playback_avail boundary buffer_size hw_ptr
        (advance_appl_ptr boundary appl_ptr boundary) =
      __snd_pcm_playback_avail boundary buffer_size hw_ptr appl_ptr := by
  have h : advance_appl_ptr boundary appl_ptr boundary = appl_ptr := by
    unfold advance_appl_ptr
    rw [Nat.add_mod_right]
    exact Nat.mod_eq_of_lt happl
  exact ⟨h, by rw [h], by rw [h]⟩

/-- Witness for `appl_advance_boundary_identity` at boundary 4,
buffer_size 2, hw_ptr 1, appl_ptr 3, ptr1 2. -/
theorem appl_advance_boundary_identity_witness :
    advance_appl_ptr 4 3 4 = 3 ∧
    pcm_frame_diff 2 (advance_appl_ptr 4 3 4) 4 = pcm_frame_diff 2 3 4 ∧
    __snd_pcm_playback_avail 4 2 1 (advance_appl_ptr 4 3 4) =
      __snd_pcm_playback_avail 4 2 1 3 :=
  appl_advance_boundary_identity 4 2 1 3 2 (by decide)

lemma avail_appl_advance (stream : snd_pcm_stream_t) (b bs hw appl d : Nat)
    (hb : 0 < b) (hbs : bs ≤ b) (hhw : hw < b) (happl : appl < b) :
    __snd_pcm_avail stream b bs hw (advance_appl_ptr b appl d) =
      (__snd_pcm_avail stream b bs hw appl - d) % b := by
  have happ2 : advance_appl_ptr b appl d < b := Nat.mod_lt _ hb
  have hcast : ((advance_appl_ptr b appl d : Nat) : Int) = ((appl : Int) + d) % b := by
    unfold advance_appl_ptr
    push_cast
    rfl
  cases stream with
  | PLAYBACK =>
    show __snd_pcm_playback_avail b bs hw (advance_appl_ptr b appl d) =
      (__snd_pcm_playback_avail b bs hw appl - d) % b
    rw [playback_avail_eq_emod b bs hw (advance_appl_ptr b appl d) hbs hhw happ2,
      playback_avail_eq_emod b bs hw appl hbs hhw happl, hcast]
    have m1 : Int.ModEq (b : Int) (((appl : Int) + d) % b) ((appl : Int) + d) :=
      Int.emod_emod_of_dvd _ dvd_rfl
    have m2 : Int.ModEq (b : Int) ((hw : Int) + bs - (((appl : Int) + d) % b))
        ((hw : Int) + bs - ((appl : Int) + d)) := Int.ModEq.sub (Int.ModEq.refl _) m1
    have m3 : Int.ModEq (b : Int) (((hw : Int) + bs - appl) % b - d)
        ((hw : Int) + bs - appl - d) :=
      Int.ModEq.sub (Int.emod_emod_of_dvd _ dvd_rfl) (Int.ModEq.refl _)
    have hz : (hw : Int) + bs - ((appl : Int) + d) = (hw : Int) + bs - appl - d := by ring
    rw [hz] at m2
    exact m2.trans m3.symm
  | CAPTURE =>
    show __snd_pcm_capture_avail b hw (advance_appl_ptr b appl d) =
      (__snd_pcm_capture_avail b hw appl - d) % b
    rw [capture_avail_eq_emod b hw (advance_appl_ptr b appl d) hhw happ2,
      capture_avail_eq_emod b hw appl hhw happl, hcast]
    have m1 : Int.ModEq (b : Int) (((appl : Int) + d) % b) ((appl : Int) + d) :=
      Int.emod_emod_of_dvd _ dvd_rfl
    have m2 : Int.ModEq (b : Int) ((hw : Int) - (((appl : Int) + d) % b))
        ((hw : Int) - ((appl : Int) + d)) := Int.ModEq.sub (Int.ModEq.refl _) m1
    have m3 : Int.ModEq (b : Int) (((hw : Int) - appl) % b - d)
        ((hw : Int) - appl - d) :=
      Int.ModEq.sub (Int.emod_emod_of_dvd _ dvd_rfl) (Int.ModEq.refl _)
    have hz : (hw : Int) - ((appl : Int) + d) = (hw : Int) - appl - d := by ring
    rw [hz] at m2
    exact m2.trans m3.symm

lemma avail_hw_advance (stream : snd_pcm_stream_t) (b bs hw appl d : Nat)
    (hb : 0 < b) (hbs : bs ≤ b) (hhw : hw < b) (happl : appl < b) :
    __snd_pcm_avail stream b bs (advance_hw_ptr b hw d) appl =
      (__snd_pcm_avail stream b bs hw appl + d) % b := by
  have hhw2 : advance_hw_ptr b hw d < b := Nat.mod_lt _ hb
  have hcast : ((advance_hw_ptr b hw d : Nat) : Int) = ((hw : Int) + d) % b := by
    unfold advance_hw_ptr
    push_cast
    rfl
  cases stream with
  | PLAYBACK =>
    show __snd_pcm_playback_avail b bs (advance_hw_ptr b hw d) appl =
      (__snd_pcm_playback_avail b bs hw appl + d) % b
    rw [playback_avail_eq_emod b bs (advance_hw_ptr b hw d) appl hbs hhw2 happl,
      playback_avail_eq_emod b bs hw appl hbs hhw happl, hcast]
    have m1 : Int.ModEq (b : Int) (((hw : Int) + d) % b) ((hw : Int) + d) :=
      Int.emod_emod_of_dvd _ dvd_rfl
    have m2 : Int.ModEq (b : Int) (((hw : Int) + d) % b + bs - appl)
        ((hw : Int) + d + bs - appl) :=
      Int.ModEq.sub (Int.ModEq.add m1 (Int.ModEq.refl _)) (Int.ModEq.refl _)
    have m3 : Int.ModEq (b : Int) (((hw : Int) + bs - appl) % b + d)
        ((hw : Int) + bs - appl + d) :=
      Int.ModEq.add (Int.emod_emod_of_dvd _ dvd_rfl) (Int.ModEq.refl _)
    have hz : (hw : Int) + d + bs - appl = (hw : Int) + bs - appl + d := by ring
    rw [hz] at m2
    exact m2.trans m3.symm
  | CAPTURE =>
    show __snd_pcm_capture_avail b (advance_hw_ptr b hw d) appl =
      (__snd_pcm_capture_avail b hw appl + d) % b
    rw [capture_avail_eq_emod b (advance_hw_ptr b hw d) appl hhw2 happl,
      capture_avail_eq_emod b hw appl hhw happl, hcast]
    have m1 : Int.ModEq (b : Int) (((hw : Int) + d) % b) ((hw : Int) + d) :=
      Int.emod_emod_of_dvd _ dvd_rfl
    have m2 : Int.ModEq (b : Int) (((hw : Int) + d) % b - appl)
        ((hw : Int) + d - appl) := Int.ModEq.sub m1 (Int.ModEq.refl _)
    have m3 : Int.ModEq (b : Int) (((hw : Int) - appl) % b + d)
        ((hw : Int) - appl + d) :=
      Int.ModEq.add (Int.emod_emod_of_dvd _ dvd_rfl) (Int.ModEq.refl _)
    have hz : (hw : Int) + d - appl = (hw : Int) - appl + d := by ring
    rw [hz] at m2
    exact m2.trans m3.symm

lemma pcm_reachable_invariant (stream : snd_pcm_stream_t) (b bs hw appl : Nat)
    (hb : 0 < b) (hbs : bs ≤ b) (h : pcm_reachable stream b bs hw appl) :
    hw < b ∧ appl < b ∧ 0 ≤ __snd_pcm_avail stream b bs hw appl ∧
      __snd_pcm_avail stream b bs hw appl ≤ bs := by
  induction h with
  | prepared =>
    refine ⟨hb, hb, ?_, ?_⟩
    · cases stream with
      | PLAYBACK =>
        rw [show __snd_pcm_avail snd_pcm_stream_t.PLAYBACK b bs 0 0 =
            __snd_pcm_playback_avail b bs 0 0 from rfl,
          playback_avail_eq_emod b bs 0 0 hbs hb hb]
        exact Int.emod_nonneg _ (by omega)
      | CAPTURE =>
        rw [show __snd_pcm_avail snd_pcm_stream_t.CAPTURE b bs 0 0 =
            __snd_pcm_capture_avail b 0 0 from rfl,
          capture_avail_eq_emod b 0 0 hb hb]
        exact Int.emod_nonneg _ (by omega)
    · cases stream with
      | PLAYBACK =>
        rw [show __snd_pcm_avail snd_pcm_stream_t.PLAYBACK b bs 0 0 =
            __snd_pcm_playback_avail b bs 0 0 from rfl,
          playback_avail_eq_emod b bs 0 0 hbs hb hb]
        have hz : ((0 : Nat) : Int) + bs - ((0 : Nat) : Int) = (bs : Int) := by push_cast; ring
        rw [hz]
        calc (bs : Int) % b ≤ (bs : Int) :=
              int_emod_le_self_of_le (by omega) (by omega)
          _ ≤ bs := le_refl _
      | CAPTURE =>
        rw [show __snd_pcm_avail snd_pcm_stream_t.CAPTURE b bs 0 0 =
            __snd_pcm_capture_avail b 0 0 from rfl,
          capture_avail_eq_emod b 0 0 hb hb]
        have hz : ((0 : Nat) : Int) - ((0 : Nat) : Int) = (0 : Int) := by norm_num
        rw [hz, Int.zero_emod]
        omega
  | appl_step hw2 appl2 d hre hd ih =>
    obtain ⟨ih1, ih2, ih3, ih4⟩ := ih
    have hkey := avail_appl_advance stream b bs hw2 appl2 d hb hbs ih1 ih2
    refine ⟨ih1, by unfold advance_appl_ptr; exact Nat.mod_lt _ hb, ?_, ?_⟩
    · rw [hkey]
      exact Int.emod_nonneg _ (by omega)
    · rw [hkey]
      calc (__snd_pcm_avail stream b bs hw2 appl2 - d) % b ≤
            __snd_pcm_avail stream b bs hw2 appl2 - d :=
            int_emod_le_self_of_le (by omega) (by omega)
        _ ≤ bs := by omega
  | hw_step hw2 appl2 d hre hd ih =>
    obtain ⟨ih1, ih2, ih3, ih4⟩ := ih
    have hkey := avail_hw_advance stream b bs hw2 appl2 d hb hbs ih1 ih2
    refine ⟨by unfold advance_hw_ptr; exact Nat.mod_lt _ hb, ih2, ?_, ?_⟩
    · rw [hkey]
      exact Int.emod_nonneg _ (by omega)
    · rw [hkey]
      calc (__snd_pcm_avail stream b bs hw2 appl2 + d) % b ≤
            __snd_pcm_avail stream b bs hw2 appl2 + d :=
            int_emod_le_self_of_le (by omega) (by omega)
        _ ≤ bs := by omega

/-- C2: for every state reachable by the pointer-advance step relation
from a prepared stream, the available-frames computation of the
corresponding direction satisfies `0 ≤ avail ≤ buffer_size`. -/
theorem avail_invariant_reachable (stream : snd_pcm_stream_t)
    (boundary buffer_size hw_ptr appl_ptr : Nat)
    (hb : 0 < boundary) (hbs : buffer_size ≤ boundary)
    (h : pcm_reachable stream boundary buffer_size hw_ptr appl_ptr) :
    0 ≤ __snd_pcm_avail stream boundary buffer_size hw_ptr appl_ptr ∧
    __snd_pcm_avail stream boundary buffer_size hw_ptr appl_ptr ≤ buffer_size :=
  ⟨(pcm_reachable_invariant stream boundary buffer_size hw_ptr appl_ptr hb hbs h).2.2.1,
   (pcm_reachable_invariant stream boundary buffer_size hw_ptr appl_ptr hb hbs h).2.2.2⟩

/-- Witness for `avail_invariant_reachable`: playback stream with
boundary 4, buffer_size 2, after one application advance of 1 frame from
the prepared state. -/
theorem avail_invariant_reachable_witness :
    0 ≤ __snd_pcm_avail snd_pcm_stream_t.PLAYBACK 4 2 0 1 ∧
    __snd_pcm_avail snd_pcm_stream_t.PLAYBACK 4 2 0 1 ≤ 2 :=
  avail_invariant_reachable snd_pcm_stream_t.PLAYBACK 4 2 0 1 (by decide) (by decide)
    (pcm_reachable.appl_step 0 0 1 pcm_reachable.prepared (by decide))

lemma muldiv_eq_of_bounds (a b c : Int) (hc : 0 < c) (hn : 0 ≤ a * b)
    (hv : a * b < c * (2 ^ 31 - 1)) :
    muldiv a b c = (a * b / c, a * b % c) := by
  unfold muldiv
  dsimp only
  rw [Int.tdiv_eq_ediv hn hc.le, Int.tmod_eq_emod hn hc.le]
  have hq0 : 0 ≤ a * b / c := Int.ediv_nonneg hn hc.le
  have hq1 : a * b / c < 2 ^ 31 - 1 := by
    rw [Int.ediv_lt_iff_lt_mul hc]
    omega
  rw [if_neg (by unfold INT_MAX; omega), if_neg (by unfold INT_MIN; omega)]

/-- C6 counterexample: for a = -5, b = 1, c = 3 the exact quotient is
-5/3; the nearest integer is -2, but `muldiv_near` returns -1 because
the C truncating division rounds the negative quotient toward zero and
the remainder test never fires for negative remainders. -/
theorem muldiv_near_negative_not_nearest :
    muldiv_near (-5) 1 3 = -1 ∧
    |3 * (-2) - (-5) * 1| < |3 * muldiv_near (-5) 1 3 - (-5) * 1| := by
  decide

/-- C6 (amended): for machine integers a, b, c with c > 0 and a
nonnegative product whose quotient stays below INT_MAX, `muldiv_near`
returns the integer nearest to the exact rational a*b/c (distances
compared after scaling by c), and when two candidates are equidistant it
returns the larger one. -/
theorem muldiv_near_nearest_ties_up (a b c : Int)
    (ha1 : INT_MIN ≤ a) (ha2 : a ≤ INT_MAX) (hb1 : INT_MIN ≤ b) (hb2 : b ≤ INT_MAX)
    (hc : 0 < c) (hcmax : c ≤ INT_MAX)
    (hn : 0 ≤ a * b) (hv : a * b < c * (2 ^ 31 - 1)) :
    (∀ m : Int, |c * muldiv_near a b c - a * b| ≤ |c * m - a * b|) ∧
    (∀ m : Int, |c * m - a * b| = |c * muldiv_near a b c - a * b| →
      m ≤ muldiv_near a b c) := by
  have hmd := muldiv_eq_of_bounds a b c hc hn hv
  set n : Int := a * b with hdefn
  set v : Int := n / c with hdefv
  set r : Int := n % c with hdefr
  have hr0 : 0 ≤ r := Int.emod_nonneg n (by omega)
  have hrc : r < c := Int.emod_lt_of_pos n hc
  have heq : c * v + r = n := Int.ediv_add_emod n c
  have htd : Int.tdiv (c + 1) 2 = (c + 1) / 2 := Int.tdiv_eq_ediv (by omega) (by omega)
  have hthr : muldiv_near a b c = if 2 * r ≥ c then v + 1 else v := by
    unfold muldiv_near
    rw [hmd]
    dsimp only
    by_cases hq : 2 * r ≥ c
    · rw [if_pos (by rw [htd]; omega), if_pos hq]
    · rw [if_neg (by rw [htd]; omega), if_neg hq]
  have habs_up : |c * (v + 1) - n| = c - r := by
    rw [show c * (v + 1) - n = c - r from by rw [← heq]; ring]
    exact abs_of_nonneg (by omega)
  have habs_dn : |c * v - n| = r := by
    rw [show c * v - n = -r from by rw [← heq]; ring, abs_neg]
    exact abs_of_nonneg hr0
  constructor
  · intro m
    by_cases hq : 2 * r ≥ c
    · rw [hthr, if_pos hq, habs_up]
      rcases le_or_lt m v with hm | hm
      · have hcm : c * m ≤ c * v := mul_le_mul_of_nonneg_left hm hc.le
        have habsm : |c * m - n| = n - c * m := by
          rw [abs_of_nonpos (show c * m - n ≤ 0 by omega)]
          ring
        rw [habsm]
        omega
      · have hcm : c * (v + 1) ≤ c * m := mul_le_mul_of_nonneg_left (by omega) hc.le
        have hcv1 : c * (v + 1) = c * v + c := by ring
        have habsm : |c * m - n| = c * m - n :=
          abs_of_nonneg (show 0 ≤ c * m - n by omega)
        rw [habsm]
        omega
    · rw [hthr, if_neg hq, habs_dn]
      rcases le_or_lt m v with hm | hm
      · have hcm : c * m ≤ c * v := mul_le_mul_of_nonneg_left hm hc.le
        have habsm : |c * m - n| = n - c * m := by
          rw [abs_of_nonpos (show c * m - n ≤ 0 by omega)]
          ring
        rw [habsm]
        omega
      · have hcm : c * (v + 1) ≤ c * m := mul_le_mul_of_nonneg_left (by omega) hc.le
        have hcv1 : c * (v + 1) = c * v + c := by ring
        have habsm : |c * m - n| = c * m - n :=
          abs_of_nonneg (show 0 ≤ c * m - n by omega)
        rw [habsm]
        omega
  · intro m hm
    by_cases hq : 2 * r ≥ c
    · rw [hthr, if_pos hq]
      rw [hthr, if_pos hq, habs_up] at hm
      by_contra hgt
      push_neg at hgt
      have hcm : c * (v + 2) ≤ c * m := mul_le_mul_of_nonneg_left (by omega) hc.le
      have hcv2 : c * (v + 2) = c * v + 2 * c := by ring
      have habsm : |c * m - n| = c * m - n :=
        abs_of_nonneg (show 0 ≤ c * m - n by omega)
      rw [habsm] at hm
      omega
    · rw [hthr, if_neg hq]
      rw [hthr, if_neg hq, habs_dn] at hm
      by_contra hgt
      push_neg at hgt
      have hcm : c * (v + 1) ≤ c * m := mul_le_mul_of_nonneg_left (by omega) hc.le
      have hcv1 : c * (v + 1) = c * v + c := by ring
      have habsm : |c * m - n| = c * m - n :=
        abs_of_nonneg (show 0 ≤ c * m - n by omega)
      rw [habsm] at hm
      omega

/-- Witness for `muldiv_near_nearest_ties_up` at a = 7, b = 3, c = 4,
compared against the candidate m = 6. -/
theorem muldiv_near_nearest_ties_up_witness :
    |4 * muldiv_near 7 3 4 - 7 * 3| ≤ |4 * 6 - 7 * 3| :=
  (muldiv_near_nearest_ties_up 7 3 4 (by decide) (by decide) (by decide) (by decide)
    (by decide) (by decide) (by decide) (by decide)).1 6

/-- C7: `snd_pcm_check_error` maps an interrupted operation (-EINTR) to
-EPIPE exactly in state XRUN, to -ESTRPIPE in state SUSPENDED, to
-ENODEV in state DISCONNECTED, and returns every other error/state
combination unchanged. -/
theorem snd_pcm_check_error_spec {α β γ : Type} (pcm : snd_pcm α β γ) (err : Int) :
    (err = -EINTR →
      ((snd_pcm_check_error pcm err = -EPIPE ↔
          __snd_pcm_state pcm = snd_pcm_state_t.XRUN) ∧
       (__snd_pcm_state pcm = snd_pcm_state_t.SUSPENDED →
          snd_pcm_check_error pcm err = -ESTRPIPE) ∧
       (__snd_pcm_state pcm = snd_pcm_state_t.DISCONNECTED →
          snd_pcm_check_error pcm err = -ENODEV))) ∧
    (¬(err = -EINTR ∧ (__snd_pcm_state pcm = snd_pcm_state_t.XRUN ∨
        __snd_pcm_state pcm = snd_pcm_state_t.SUSPENDED ∨
        __snd_pcm_state pcm = snd_pcm_state_t.DISCONNECTED)) →
      snd_pcm_check_error pcm err = err) := by
  constructor
  · intro he
    subst he
    refine ⟨?_, ?_, ?_⟩ <;> cases hs : __snd_pcm_state pcm <;>
      simp [snd_pcm_check_error, hs, EINTR, EPIPE, ESTRPIPE, ENODEV]
  · intro hother
    by_cases he : err = -EINTR
    · subst he
      cases hs : __snd_pcm_state pcm <;>
        simp_all [snd_pcm_check_error, hs, EINTR]
    · unfold snd_pcm_check_error
      rw [if_neg he]

/-- Witness for `snd_pcm_check_error_spec`: a handle in XRUN state turns
-EINTR into the xrun error -EPIPE. -/
theorem snd_pcm_check_error_spec_witness :
    snd_pcm_check_error pcm_in_xrun (-4) = -EPIPE ∧
    snd_pcm_check_error pcm_all_none (-5) = -5 :=
  ⟨((snd_pcm_check_error_spec pcm_in_xrun (-4)).1 rfl).1.mpr rfl,
   (snd_pcm_check_error_spec pcm_all_none (-5)).2 (by decide)⟩

/-- C8: `snd_pcm_may_wait_for_avail_min` returns 0 (do not block) as
soon as `avail` reaches the configured `avail_min`; below the threshold
and with no plugin override callback installed it returns 1 (the caller
may block). -/
theorem may_wait_for_avail_min_spec {α β γ : Type} (pcm : snd_pcm α β γ) (avail : Nat) :
    (pcm.avail_min ≤ avail → snd_pcm_may_wait_for_avail_min pcm avail = 0) ∧
    (avail < pcm.avail_min → pcm.fast_ops.may_wait_for_avail_min = none →
      snd_pcm_may_wait_for_avail_min pcm avail = 1) := by
  constructor
  · intro h
    unfold snd_pcm_may_wait_for_avail_min
    rw [if_pos h]
  · intro h hnone
    unfold snd_pcm_may_wait_for_avail_min
    rw [if_neg (by omega), hnone]

/-- Witness for `may_wait_for_avail_min_spec` on a handle with
avail_min 4 and no override callback. -/
theorem may_wait_for_avail_min_spec_witness :
    snd_pcm_may_wait_for_avail_min pcm_all_none 5 = 0 ∧
    snd_pcm_may_wait_for_avail_min pcm_all_none 3 = 1 :=
  ⟨(may_wait_for_avail_min_spec pcm_all_none 5).1 (by decide),
   (may_wait_for_avail_min_spec pcm_all_none 3).2 (by decide) rfl⟩

/-- C9: the rewindable-frames computations (playback, capture and
direction-generic) return `max (buffer_size - avail) 0` of the
corresponding avail computation, hence never a negative frame count,
even when avail exceeds buffer_size after an xrun. -/
theorem hw_rewindable_nonneg_max (stream : snd_pcm_stream_t)
    (boundary buffer_size hw_ptr appl_ptr : Nat) :
    snd_pcm_mmap_playback_hw_rewindable boundary buffer_size hw_ptr appl_ptr =
      max ((buffer_size : Int) -
        __snd_pcm_playback_avail boundary buffer_size hw_ptr appl_ptr) 0 ∧
    0 ≤ snd_pcm_mmap_playback_hw_rewindable boundary buffer_size hw_ptr appl_ptr ∧
    snd_pcm_mmap_capture_hw_rewindable boundary buffer_size hw_ptr appl_ptr =
      max ((buffer_size : Int) - __snd_pcm_capture_avail boundary hw_ptr appl_ptr) 0 ∧
    0 ≤ snd_pcm_mmap_capture_hw_rewindable boundary buffer_size hw_ptr appl_ptr ∧
    snd_pcm_mmap_hw_rewindable stream boundary buffer_size hw_ptr appl_ptr =
      max ((buffer_size : Int) -
        __snd_pcm_avail stream boundary buffer_size hw_ptr appl_ptr) 0 ∧
    0 ≤ snd_pcm_mmap_hw_rewindable stream boundary buffer_size hw_ptr appl_ptr := by
  refine ⟨?_, ?_, ?_, ?_, ?_, ?_⟩ <;>
      simp only [snd_pcm_mmap_playback_hw_rewindable, snd_pcm_mmap_capture_hw_rewindable,
        snd_pcm_mmap_hw_rewindable, snd_pcm_mmap_playback_hw_avail,
        snd_pcm_mmap_capture_hw_avail, snd_pcm_mmap_hw_avail] <;>
      split_ifs with h
  · exact (max_eq_left h).symm
  · exact (max_eq_right (by omega)).symm
  · exact h
  · exact le_refl _
  · exact (max_eq_left h).symm
  · exact (max_eq_right (by omega)).symm
  · exact h
  · exact le_refl _
  · exact (max_eq_left h).symm
  · exact (max_eq_right (by omega)).symm
  · exact h
  · exact le_refl _

/-- C10: each fast-ops dispatch wrapper returns -ENOSYS when its
callback is NULL (the state wrapper returns SND_PCM_STATE_OPEN), and
otherwise returns exactly the callback result applied to
`fast_op_arg`. -/
theorem fast_ops_dispatch_spec {α β γ : Type} (pcm : snd_pcm α β γ)
    (buffer : β) (bufs : γ) (size : Nat) (delayp : Int) :
    (pcm.fast_ops.avail_update = none → __snd_pcm_avail_update pcm = -ENOSYS) ∧
    (∀ f, pcm.fast_ops.avail_update = some f →
      __snd_pcm_avail_update pcm = f pcm.fast_op_arg) ∧
    (pcm.fast_ops.start = none → __snd_pcm_start pcm = -ENOSYS) ∧
    (∀ f, pcm.fast_ops.start = some f → __snd_pcm_start pcm = f pcm.fast_op_arg) ∧
    (pcm.fast_ops.hwsync = none → __snd_pcm_hwsync pcm = -ENOSYS) ∧
    (∀ f, pcm.fast_ops.hwsync = some f → __snd_pcm_hwsync pcm = f pcm.fast_op_arg) ∧
    (pcm.fast_ops.delay = none → __snd_pcm_delay pcm delayp = (-ENOSYS, delayp)) ∧
    (∀ f, pcm.fast_ops.delay = some f →
      __snd_pcm_delay pcm delayp = f pcm.fast_op_arg) ∧
    (pcm.fast_ops.state = none → __snd_pcm_state pcm = snd_pcm_state_t.OPEN) ∧
    (∀ f, pcm.fast_ops.state = some f → __snd_pcm_state pcm = f pcm.fast_op_arg) ∧
    (pcm.fast_ops.writei = none → _snd_pcm_writei pcm buffer size = -ENOSYS) ∧
    (∀ f, pcm.fast_ops.writei = some f →
      _snd_pcm_writei pcm buffer size = f pcm.fast_op_arg buffer size) ∧
    (pcm.fast_ops.writen = none → _snd_pcm_writen pcm bufs size = -ENOSYS) ∧
    (∀ f, pcm.fast_ops.writen = some f →
      _snd_pcm_writen pcm bufs size = f pcm.fast_op_arg bufs size) ∧
    (pcm.fast_ops.readi = none → _snd_pcm_readi pcm buffer size = -ENOSYS) ∧
    (∀ f, pcm.fast_ops.readi = some f →
      _snd_pcm_readi pcm buffer size = f pcm.fast_op_arg buffer size) ∧
    (pcm.fast_ops.readn = none → _snd_pcm_readn pcm bufs size = -ENOSYS) ∧
    (∀ f, pcm.fast_ops.readn = some f →
      _snd_pcm_readn pcm bufs size = f pcm.fast_op_arg bufs size) := by
  refine ⟨fun h => ?_, fun f h => ?_, fun h => ?_, fun f h => ?_, fun h => ?_,
    fun f h => ?_, fun h => ?_, fun f h => ?_, fun h => ?_, fun f h => ?_,
    fun h => ?_, fun f h => ?_, fun h => ?_, fun f h => ?_, fun h => ?_,
    fun f h => ?_, fun h => ?_, fun f h => ?_⟩ <;>
  simp only [__snd_pcm_avail_update, __snd_pcm_start, __snd_pcm_hwsync,
    __snd_pcm_delay, __snd_pcm_state, _snd_pcm_writei, _snd_pcm_writen,
    _snd_pcm_readi, _snd_pcm_readn, h]

/-- Witness for `fast_ops_dispatch_spec` on concrete handles with all
callbacks NULL and all callbacks installed. -/
theorem fast_ops_dispatch_spec_witness :
    __snd_pcm_avail_update pcm_all_none = -ENOSYS ∧
    __snd_pcm_state pcm_all_none = snd_pcm_state_t.OPEN ∧
    _snd_pcm_writei pcm_all_none () 3 = -ENOSYS ∧
    __snd_pcm_avail_update pcm_all_set = 42 :=
  ⟨(fast_ops_dispatch_spec pcm_all_none () () 3 0).1 rfl,
   (fast_ops_dispatch_spec pcm_all_none () () 3 0).2.2.2.2.2.2.2.2.1 rfl,
   (fast_ops_dispatch_spec pcm_all_none () () 3 0).2.2.2.2.2.2.2.2.2.2.1 rfl,
   (fast_ops_dispatch_spec pcm_all_set () () 3 0).2.1 (fun _ => 42) rfl⟩
